import Mathlib

/-!
Shallow embedding of the NELSVIEW volumetric reconstruction pipeline.

Source files embedded here:
* `src/frontend/src/DicomViewer1.js` — `handleFileUpload` (slice loading and
  ordering) and `createVolumeFromSlices` (volumetric point sampling and the
  scene swap that keeps the two lights).
* `src/unnamed/part_000` — the `ThreeDViewer` component (scene update effect
  that filters the scene down to the lights and adds the new point cloud).

Conventions of the embedding:
* JS numbers that take fractional values (positions, colors, random draws)
  are modelled as `ℚ`; pixel intensities are `Int` (Hounsfield-like units).
* `Math.random()` is modelled as an oracle `rng : Nat → ℚ` consumed in call
  order; a counter in the sampling state tracks how many draws happened.
  The always-keep retention policy is the constant-zero oracle.
* The source hard-codes `samplingFactor = 4`; the sampler below takes the
  stride as a parameter (`samplingFactor` records the source's constant),
  since the specified contract and the claims quantify over the stride.
* JS array indexing out of bounds yields `undefined`; every `<` comparison
  against `undefined` is false, so such a read falls through to the Bone
  branch.  The embedding mirrors this via `List.get?`.
* The JS function can only signal failure by throwing; its body contains no
  `throw`, so the embedding's result type `Except ReconError _` records that
  a thrown error would be `.error` and that the code in fact always returns
  normally (`.ok`).  An early return without building a cloud is `.ok none`.
-/

deriving instance DecidableEq for Except

namespace Nelsview

/-- One cross-section as consumed by `createVolumeFromSlices`:
`image.columns`, `image.rows` and `image.getPixelData()` (row-major). -/
structure Slice where
  width : Nat
  height : Nat
  pixelData : List Int
deriving Repr, DecidableEq

/-- A 3D vector / RGB triple of JS floats, modelled as rationals. -/
abbrev Vec3 := ℚ × ℚ × ℚ

/-- The reconstruction output: parallel `points` and `colors` sequences,
as pushed into the `vertices` and `colors` arrays of the source. -/
structure PointCloud where
  points : List Vec3
  colors : List Vec3
deriving Repr, DecidableEq

/-- `new THREE.Color(0x3498db)` — the color used for the air/lung value range. -/
def blueColor : Vec3 := (52/255, 152/255, 219/255)

/-- `new THREE.Color(0xe74c3c)` — the color used for soft tissue. -/
def redColor : Vec3 := (231/255, 76/255, 60/255)

/-- `new THREE.Color(0xf1c40f)` — the color used for bone. -/
def boneColor : Vec3 := (241/255, 196/255, 15/255)

/-- `const sliceHeight = 1;` (the spec's `sliceSpacing`). -/
def sliceHeight : ℚ := 1

/-- `const totalHeight = slices.length * sliceHeight;` -/
def totalHeight (n : Nat) : ℚ := (n : ℚ) * sliceHeight

/-- `const z = i * sliceHeight - totalHeight / 2;` — the z-coordinate shared
by all points of the slice at stack position `i` out of `n`. -/
def sliceZ (i n : Nat) : ℚ := (i : ℚ) * sliceHeight - totalHeight n / 2

/-- `const samplingFactor = 4;` — the stride constant fixed by the source. -/
def samplingFactor : Nat := 4

/-- The values a loop `for (v = 0; v < n; v += stride)` visits, in order.
For positive `stride` these are exactly the multiples of `stride` below `n`. -/
def strideRange (n stride : Nat) : List Nat :=
  (List.range n).filter (fun v => v % stride == 0)

/-- The `(y, x)` pairs visited by the nested sampling loops, in loop order
(`y` outer, `x` inner, both stepping by the stride). -/
def sampledCoords (height width stride : Nat) : List (Nat × Nat) :=
  (strideRange height stride).flatMap
    (fun y => (strideRange width stride).map (fun x => (y, x)))

/-- Mutable state of the sampling loops: the `vertices` and `colors` arrays
being pushed to, plus the number of `Math.random()` draws consumed so far. -/
structure SampleState where
  k : Nat
  vertices : List Vec3
  colors : List Vec3
deriving Repr, DecidableEq

/-- The position pushed for a retained sample at grid coordinates `(y, x)`:
`vertices.push(x - centerX, -(y - centerY), z)` with
`centerX = width / 2`, `centerY = height / 2`. -/
def posOf (width height : Nat) (z : ℚ) (yx : Nat × Nat) : Vec3 :=
  ((yx.2 : ℚ) - (width : ℚ) / 2, -((yx.1 : ℚ) - (height : ℚ) / 2), z)

/-- Body of the inner sampling loop of `createVolumeFromSlices` for one grid
coordinate pair: threshold test at −800, tissue classification at −100 and
200, random thinning for the two lower classes (keep when the draw is ≤ 0.1
resp. ≤ 0.3, skip otherwise), and the pushes into `vertices`/`colors`.
An out-of-range read (`undefined` in JS) compares false under every `<` and
falls through to the Bone branch. -/
def processPixel (rng : Nat → ℚ) (width height : Nat) (z : ℚ) (pixelData : List Int)
    (st : SampleState) (yx : Nat × Nat) : SampleState :=
  let pixelIndex := yx.1 * width + yx.2
  match pixelData.get? pixelIndex with
  | none =>
      { st with vertices := st.vertices ++ [posOf width height z yx],
                colors := st.colors ++ [boneColor] }
  | some pixelValue =>
      if pixelValue < -800 then st
      else if pixelValue < -100 then
        if rng st.k > 1/10 then { st with k := st.k + 1 }
        else { k := st.k + 1,
               vertices := st.vertices ++ [posOf width height z yx],
               colors := st.colors ++ [blueColor] }
      else if pixelValue < 200 then
        if rng st.k > 3/10 then { st with k := st.k + 1 }
        else { k := st.k + 1,
               vertices := st.vertices ++ [posOf width height z yx],
               colors := st.colors ++ [redColor] }
      else
        { st with vertices := st.vertices ++ [posOf width height z yx],
                  colors := st.colors ++ [boneColor] }

/-- The two nested pixel loops for one slice, using that slice's own
`columns`/`rows`/`getPixelData()`. -/
def sampleSlice (rng : Nat → ℚ) (stride : Nat) (z : ℚ) (s : Slice)
    (st : SampleState) : SampleState :=
  (sampledCoords s.height s.width stride).foldl
    (processPixel rng s.width s.height z s.pixelData) st

/-- The error taxonomy named by the specification.  The source never throws,
so the embedding proves below that neither error is ever produced. -/
inductive ReconError where
  | emptyStack
  | dimensionMismatch
deriving Repr, DecidableEq

/-- The state the sampling loops start from: empty arrays, no draws yet. -/
def initSampleState : SampleState := ⟨0, [], []⟩

/-- `createVolumeFromSlices`, data part: the guard
`if (!threeScene.current || slices.length === 0) return;` (early return,
modelled as `.ok none`) followed by the per-slice sampling loop; on the
normal path the pushed `vertices`/`colors` become the point cloud. -/
def createVolumeFromSlices (rng : Nat → ℚ) (stride : Nat) (slices : List Slice) :
    Except ReconError (Option PointCloud) :=
  if slices.length = 0 then .ok none
  else
    let st := slices.enum.foldl
      (fun st is => sampleSlice rng stride (sliceZ is.1 slices.length) is.2 st)
      initSampleState
    .ok (some ⟨st.vertices, st.colors⟩)

/-- Objects a scene can hold, as far as the embedded effects distinguish
them: the two light kinds and `THREE.Points` point-cloud objects. -/
inductive SceneObj where
  | ambient (color : Nat) (intensity : ℚ)
  | directional (color : Nat) (intensity : ℚ)
  | pointsObj (pc : PointCloud)
deriving Repr, DecidableEq

/-- `new THREE.AmbientLight(0xffffff, 0.5)`. -/
def ambientLightObj : SceneObj := .ambient 0xffffff (1/2)

/-- `new THREE.DirectionalLight(0xffffff, 0.8)`. -/
def directionalLightObj : SceneObj := .directional 0xffffff (8/10)

/-- The scene right after initialization: the ambient light added first,
then the directional light. -/
def initScene : List SceneObj := [ambientLightObj, directionalLightObj]

/-- `child instanceof THREE.AmbientLight || child instanceof THREE.DirectionalLight`. -/
def isLight : SceneObj → Bool
  | .ambient _ _ => true
  | .directional _ _ => true
  | .pointsObj _ => false

/-- Recognizes a `THREE.Points` object in the scene. -/
def isPointCloudObj : SceneObj → Bool
  | .pointsObj _ => true
  | _ => false

/-- `while (threeScene.current.children.length > 2) { threeScene.current.remove(threeScene.current.children[2]); }`
— repeatedly removes the child at index 2 until at most two children remain. -/
def clearVolumeLoop (scene : List SceneObj) : List SceneObj :=
  if h : 2 < scene.length then clearVolumeLoop (scene.eraseIdx 2) else scene
termination_by scene.length
decreasing_by rw [List.length_eraseIdx, if_pos h]; omega

/-- The scene part of `createVolumeFromSlices` on the non-empty path:
clear everything past the first two children (the lights), then add the new
point cloud at the end. -/
def replaceVolume (scene : List SceneObj) (pc : PointCloud) : List SceneObj :=
  clearVolumeLoop scene ++ [SceneObj.pointsObj pc]

/-- Full scene effect of one `createVolumeFromSlices` call: on the early
return the scene is untouched; otherwise the sampled cloud replaces the
previous volume. -/
def createVolumeSceneEffect (rng : Nat → ℚ) (stride : Nat)
    (scene : List SceneObj) (slices : List Slice) : List SceneObj :=
  match createVolumeFromSlices rng stride slices with
  | .ok (some pc) => replaceVolume scene pc
  | _ => scene

/-- The `ThreeDViewer` scene-update effect of `src/unnamed/part_000`:
`if (!scene || !volumeData || !volumeData.points || volumeData.points.length === 0) return;`
then filter the children down to the lights and add the new point cloud. -/
def updateVolumeEffect (scene : List SceneObj) (volumeData : Option PointCloud) :
    List SceneObj :=
  match volumeData with
  | none => scene
  | some v =>
      if v.points.length = 0 then scene
      else scene.filter isLight ++ [SceneObj.pointsObj v]

/-- One slice as produced by the loading step of `handleFileUpload`:
the arrival index and the `instanceNumber` field, which the source sets to
`parseInt(image.data.string('x00200013'))` when the tag is present and to
the arrival index otherwise. -/
structure LoadedSlice where
  index : Nat
  instanceNumber : Int
deriving Repr, DecidableEq

/-- The loading map of `handleFileUpload`: each uploaded file (represented
by its optional integer instance tag, in arrival order) becomes a
`LoadedSlice` whose sort key defaults to the arrival index. -/
def loadSlices (tags : List (Option Int)) : List LoadedSlice :=
  tags.enum.map (fun it => ⟨it.1, it.2.getD (it.1 : Int)⟩)

/-- Stable insertion of one slice into an already sorted list: the new
element goes after every existing element whose key is ≤ its own. -/
def insertSlice (a : LoadedSlice) : List LoadedSlice → List LoadedSlice
  | [] => [a]
  | b :: bs =>
      if a.instanceNumber < b.instanceNumber then a :: b :: bs
      else b :: insertSlice a bs

/-- `loadedSlices.sort((a, b) => a.instanceNumber - b.instanceNumber)` —
JS `Array.prototype.sort` is required to be stable and, under this
comparator, orders ascending by `instanceNumber`; the unique such
reordering is computed here as a left-to-right stable insertion sort. -/
def sortSlices (ls : List LoadedSlice) : List LoadedSlice :=
  ls.foldl (fun acc a => insertSlice a acc) []

/-- The slice-ordering part of `handleFileUpload`: load (attaching arrival
indices and default keys), then sort. -/
def handleFileUploadSort (tags : List (Option Int)) : List LoadedSlice :=
  sortSlices (loadSlices tags)

/-- The constant-zero random oracle: every draw is `0`, so every
`Math.random() > 0.1` / `> 0.3` test is false and every classified sample
is kept.  This is the spec's always-keep retention policy. -/
def rngZero : Nat → ℚ := fun _ => 0

/-- A sample point emitted from slice `s` (placed at depth `z`): it arises
from a grid coordinate the stride loops visit, whose pixel value is present
and not below the −800 air threshold. -/
def SliceEmission (stride : Nat) (z : ℚ) (s : Slice) (p : Vec3) : Prop :=
  ∃ yx : Nat × Nat, yx ∈ sampledCoords s.height s.width stride ∧
    p = posOf s.width s.height z yx ∧
    ∃ v : Int, s.pixelData.get? (yx.1 * s.width + yx.2) = some v ∧ ¬ v < -800

/-- The stable sort order the normalizer realizes on loaded slices: strictly
smaller key first, and among equal keys the smaller arrival index first. -/
def stableKeyOrder (a b : LoadedSlice) : Prop :=
  a.instanceNumber < b.instanceNumber ∨
    (a.instanceNumber = b.instanceNumber ∧ a.index ≤ b.index)

/-- Slice 0 of the spec's concrete scenario: 4×4, every value −1000. -/
def scenSlice0 : Slice := ⟨4, 4, List.replicate 16 (-1000)⟩

/-- Slice 1 of the spec's concrete scenario: 4×4, every value 500. -/
def scenSlice1 : Slice := ⟨4, 4, List.replicate 16 500⟩

/-- The spec's concrete two-slice scenario stack. -/
def scenStack : List Slice := [scenSlice0, scenSlice1]

/-- Two slices that disagree on width (2 versus 3), all values 500. -/
def mismatchStack : List Slice := [⟨2, 1, [500, 500]⟩, ⟨3, 1, [500, 500, 500]⟩]

/-- A one-slice stack whose single pixel is air (−1000 < −800). -/
def airStack : List Slice := [⟨1, 1, [-1000]⟩]

/-- A one-slice 1×1 stack with a bone value, used to instantiate the
universally quantified claims at a concrete input. -/
def stackOne : List Slice := [⟨1, 1, [500]⟩]

/-- The point cloud reconstruction yields on `stackOne` with stride 1. -/
def cloudOne : PointCloud := ⟨[(-1/2, 1/2, -1/2)], [boneColor]⟩

/-- Number of points carried by a reconstruction result (0 when no cloud was
built). -/
def emittedCount : Except ReconError (Option PointCloud) → Nat
  | .ok (some pc) => pc.points.length
  | _ => 0

/-- An arbitrary non-empty point cloud standing for previously displayed
content. -/
def oldCloud : PointCloud := ⟨[(1, 1, 1)], [(0, 0, 0)]⟩

/-- A scene already displaying `oldCloud` behind the two lights. -/
def sceneWithOld : List SceneObj :=
  [ambientLightObj, directionalLightObj, .pointsObj oldCloud]

/-- A slice used to instantiate the in-bounds claim: 2×2 with four pixels. -/
def sliceTwoByTwo : Slice := ⟨2, 2, [1, 2, 3, 4]⟩

/-- Concrete instance tags (two equal tags, one missing tag) used to
instantiate the normalizer claim. -/
def tagsW : List (Option Int) := [some 5, none, some 5, some 2]

/-- C1: on the 2-slice 4×4 scenario stack (slice 0 all −1000, slice 1 all
500) with stride 1 and the always-keep policy, reconstruction yields exactly
16 points, all at slice 1's z-coordinate `1·1 − 2/2 = 0` (none at slice 0's
`−1`), every one colored as Bone. -/
theorem c1_bone_scenario :
    ∃ pc, createVolumeFromSlices rngZero 1 scenStack = .ok (some pc) ∧
      pc.points.length = 16 ∧
      (∀ p ∈ pc.points, p.2.2 = sliceZ 1 2) ∧
      (∀ p ∈ pc.points, p.2.2 ≠ sliceZ 0 2) ∧
      (∀ c ∈ pc.colors, c = boneColor) ∧
      sliceZ 1 2 = 0 ∧ sliceZ 0 2 = -1 := by
  refine ⟨_, rfl, ?_, ?_, ?_, ?_, ?_, ?_⟩ <;> with_unfolding_all decide

/-- C3 counterexample: on the empty stack the source returns normally with
no point cloud; it does not signal `EmptyStackError`. -/
theorem c3_cex :
    createVolumeFromSlices rngZero samplingFactor [] = .ok none ∧
    createVolumeFromSlices rngZero samplingFactor [] ≠ .error .emptyStack := by
  with_unfolding_all decide

/-- C3 (amended): reconstruction on an empty slice stack returns early
without building a point cloud and without signalling any error. -/
theorem c3_empty_silent_return (rng : Nat → ℚ) (stride : Nat) :
    createVolumeFromSlices rng stride [] = .ok none := rfl

/-- C4 counterexample: a stack of two slices with widths 2 and 3 is sampled
anyway — no `DimensionMismatchError`, and five points (two from the first
slice, three from the second) are emitted. -/
theorem c4_cex :
    createVolumeFromSlices rngZero 1 mismatchStack ≠ .error .dimensionMismatch ∧
    emittedCount (createVolumeFromSlices rngZero 1 mismatchStack) = 5 := by
  with_unfolding_all decide

/-- C4 (amended): the source performs no dimension-consistency validation;
reconstruction never signals an error, and every non-empty stack — however
mismatched — is sampled into a point cloud, each slice with its own
width/height. -/
theorem c4_no_dimension_check (rng : Nat → ℚ) (stride : Nat) (slices : List Slice) :
    (∀ e : ReconError, createVolumeFromSlices rng stride slices ≠ .error e) ∧
    (slices ≠ [] → ∃ pc, createVolumeFromSlices rng stride slices = .ok (some pc)) := by
  constructor
  · intro e
    unfold createVolumeFromSlices
    split <;> simp
  · intro hne
    unfold createVolumeFromSlices
    rw [if_neg (by simpa [List.length_eq_zero] using hne)]
    exact ⟨_, rfl⟩

/-- Witness for the amended C4 at a concrete mismatched stack. -/
theorem c4_no_dimension_check_witness :
    createVolumeFromSlices rngZero 1 mismatchStack ≠ .error .emptyStack ∧
    (∃ pc, createVolumeFromSlices rngZero 1 mismatchStack = .ok (some pc)) :=
  ⟨(c4_no_dimension_check rngZero 1 mismatchStack).1 .emptyStack,
   (c4_no_dimension_check rngZero 1 mismatchStack).2 (by decide)⟩

/-- The child-removal loop of `createVolumeFromSlices` reduces any scene
that starts with two children to exactly those two children. -/
theorem clearVolumeLoop_pair (a b : SceneObj) :
    ∀ rest : List SceneObj, clearVolumeLoop (a :: b :: rest) = [a, b] := by
  intro rest
  induction rest with
  | nil => rw [clearVolumeLoop]; rfl
  | cons c rest ih =>
      rw [clearVolumeLoop, dif_pos (by simp)]
      simpa [List.eraseIdx] using ih

/-- C8: replacing the volume twice starting from the freshly initialized
scene leaves exactly the two original lights followed by the single second
point cloud: one point-cloud object, both lights present and unchanged. -/
theorem c8_replace_twice (pc1 pc2 : PointCloud) :
    replaceVolume (replaceVolume initScene pc1) pc2 =
      [ambientLightObj, directionalLightObj, SceneObj.pointsObj pc2] ∧
    (replaceVolume (replaceVolume initScene pc1) pc2).countP isPointCloudObj = 1 ∧
    (replaceVolume (replaceVolume initScene pc1) pc2).filter isLight = initScene := by
  have h1 : replaceVolume initScene pc1 =
      [ambientLightObj, directionalLightObj, SceneObj.pointsObj pc1] := by
    unfold replaceVolume initScene
    rw [clearVolumeLoop_pair]
    rfl
  have h2 : replaceVolume (replaceVolume initScene pc1) pc2 =
      [ambientLightObj, directionalLightObj, SceneObj.pointsObj pc2] := by
    rw [h1]
    unfold replaceVolume
    rw [clearVolumeLoop_pair]
    rfl
  refine ⟨h2, ?_, ?_⟩ <;> rw [h2] <;>
    simp [isPointCloudObj, isLight, ambientLightObj, directionalLightObj,
      initScene, List.countP_cons, List.countP_nil]

/-- C9 counterexample: an all-air stack yields a valid zero-point cloud, but
the `ThreeDViewer` update effect skips it — the scene keeps displaying the
previous point cloud instead of swapping in the empty one. -/
theorem c9_cex :
    createVolumeFromSlices rngZero 1 airStack = .ok (some ⟨[], []⟩) ∧
    updateVolumeEffect sceneWithOld (some ⟨[], []⟩) = sceneWithOld ∧
    sceneWithOld ≠ sceneWithOld.filter isLight ++ [SceneObj.pointsObj ⟨[], []⟩] := by
  refine ⟨rfl, rfl, ?_⟩
  intro h
  simp [sceneWithOld, oldCloud, ambientLightObj, directionalLightObj, isLight] at h

/-- Membership in `strideRange`: the visited loop values are exactly the
multiples of the stride below the bound. -/
theorem mem_strideRange {n stride v : Nat} :
    v ∈ strideRange n stride ↔ v < n ∧ v % stride = 0 := by
  simp [strideRange, List.mem_filter, List.mem_range]

/-- Membership in the sampled coordinate grid. -/
theorem mem_sampledCoords {height width stride : Nat} {yx : Nat × Nat} :
    yx ∈ sampledCoords height width stride ↔
      yx.1 ∈ strideRange height stride ∧ yx.2 ∈ strideRange width stride := by
  obtain ⟨y, x⟩ := yx
  simp only [sampledCoords, List.mem_flatMap, List.mem_map, Prod.mk.injEq]
  constructor
  · rintro ⟨y2, hy2, x2, hx2, rfl, rfl⟩
    exact ⟨hy2, hx2⟩
  · rintro ⟨hy, hx⟩
    exact ⟨y, hy, x, hx, rfl, rfl⟩

/-- Row-major index arithmetic: a coordinate inside the grid stays inside a
`width * height` array. -/
theorem pixelIndex_lt {w h x y : Nat} (hx : x < w) (hy : y < h) :
    y * w + x < w * h := by
  have h2 : (y + 1) * w ≤ h * w := Nat.mul_le_mul_right w hy
  have h3 : (y + 1) * w = y * w + w := by rw [Nat.add_mul, Nat.one_mul]
  rw [Nat.mul_comm w h]
  omega

/-- A step-preserved property of the sampling state holds of a left fold. -/
theorem foldl_preserve {α β : Type} (f : β → α → β) (P : β → Prop) :
    ∀ (l : List α) (b : β), (∀ b' a, a ∈ l → P b' → P (f b' a)) →
      P b → P (l.foldl f b)
  | [], _, _, hb => hb
  | a :: l, b, hf, hb =>
      foldl_preserve f P l (f b a)
        (fun b' a2 h2 => hf b' a2 (List.mem_cons_of_mem a h2))
        (hf b a (List.mem_cons_self a l) hb)

/-- Tracing a left fold over sampling states: when every step only appends
vertices satisfying `Q` of its element, every vertex of the result is an
initial vertex or arose from some element of the folded list. -/
theorem foldl_vertices_mem {α : Type} (f : SampleState → α → SampleState)
    (Q : α → Vec3 → Prop) :
    ∀ (l : List α) (st : SampleState),
      (∀ st2 a, a ∈ l → ∀ p ∈ (f st2 a).vertices, p ∈ st2.vertices ∨ Q a p) →
      ∀ p ∈ (l.foldl f st).vertices, p ∈ st.vertices ∨ ∃ a ∈ l, Q a p
  | [], _, _, _, hp => .inl hp
  | a :: l, st, hf, p, hp => by
      rcases foldl_vertices_mem f Q l (f st a)
          (fun st2 b hb => hf st2 b (List.mem_cons_of_mem a hb)) p hp with
        h | ⟨b, hb, hq⟩
      · rcases hf st a (List.mem_cons_self a l) p h with h2 | h2
        · exact .inl h2
        · exact .inr ⟨a, List.mem_cons_self a l, h2⟩
      · exact .inr ⟨b, List.mem_cons_of_mem a hb, hq⟩

/-- Each `processPixel` step either leaves the vertex array unchanged or
appends exactly the position of its coordinate pair — and it appends only
when the value found there (if any) is not below the −800 cutoff. -/
theorem processPixel_vertices (rng : Nat → ℚ) (w h : Nat) (z : ℚ) (pd : List Int)
    (st : SampleState) (yx : Nat × Nat) :
    (processPixel rng w h z pd st yx).vertices = st.vertices ∨
      ((processPixel rng w h z pd st yx).vertices = st.vertices ++ [posOf w h z yx] ∧
        ∀ v : Int, pd.get? (yx.1 * w + yx.2) = some v → ¬ v < -800) := by
  simp only [processPixel]
  split
  case _ hg =>
    exact .inr ⟨rfl, fun v hv => by rw [hg] at hv; exact Option.noConfusion hv⟩
  case _ v hg =>
    split_ifs with h1 h2 h3 h4 h5
    · exact .inl rfl
    · exact .inl rfl
    · refine .inr ⟨rfl, fun v2 hv2 => ?_⟩
      rw [hg, Option.some_inj] at hv2
      exact hv2 ▸ h1
    · exact .inl rfl
    · refine .inr ⟨rfl, fun v2 hv2 => ?_⟩
      rw [hg, Option.some_inj] at hv2
      exact hv2 ▸ h1
    · refine .inr ⟨rfl, fun v2 hv2 => ?_⟩
      rw [hg, Option.some_inj] at hv2
      exact hv2 ▸ h1

/-- Slice-level provenance: every vertex produced by `sampleSlice` beyond
the incoming state comes from a sampled coordinate of that slice, sits at
that coordinate's position, and its pixel value (when the read was in
range) was not below −800. -/
theorem sampleSlice_vertices (rng : Nat → ℚ) (stride : Nat) (z : ℚ) (s : Slice)
    (st : SampleState) :
    ∀ p ∈ (sampleSlice rng stride z s st).vertices, p ∈ st.vertices ∨
      ∃ yx ∈ sampledCoords s.height s.width stride,
        p = posOf s.width s.height z yx ∧
        ∀ v : Int, s.pixelData.get? (yx.1 * s.width + yx.2) = some v → ¬ v < -800 := by
  intro p hp
  refine foldl_vertices_mem _
    (fun yx q => q = posOf s.width s.height z yx ∧
      ∀ v : Int, s.pixelData.get? (yx.1 * s.width + yx.2) = some v → ¬ v < -800)
    _ st ?_ p hp
  intro st2 yx _ q hq
  rcases processPixel_vertices rng s.width s.height z s.pixelData st2 yx with
    h | ⟨h, hv⟩
  · rw [h] at hq
    exact .inl hq
  · rw [h] at hq
    rcases List.mem_append.mp hq with h2 | h2
    · exact .inl h2
    · exact .inr ⟨List.mem_singleton.mp h2, hv⟩

/-- Stack-level provenance: every point of a reconstructed cloud comes from
some slice of the stack (at that slice's z-depth) and some sampled
coordinate whose in-range pixel value was not below −800. -/
theorem createVolume_provenance (rng : Nat → ℚ) (stride : Nat)
    (slices : List Slice) (pc : PointCloud)
    (hpc : createVolumeFromSlices rng stride slices = .ok (some pc)) :
    ∀ p ∈ pc.points, ∃ i s, slices.get? i = some s ∧
      ∃ yx ∈ sampledCoords s.height s.width stride,
        p = posOf s.width s.height (sliceZ i slices.length) yx ∧
        ∀ v : Int, s.pixelData.get? (yx.1 * s.width + yx.2) = some v → ¬ v < -800 := by
  unfold createVolumeFromSlices at hpc
  split at hpc
  · exact absurd hpc (by simp)
  · simp only [Except.ok.injEq, Option.some.injEq] at hpc
    intro p hp
    rw [← hpc] at hp
    have hmem := foldl_vertices_mem
      (fun st is => sampleSlice rng stride (sliceZ is.1 slices.length) is.2 st)
      (fun is p => ∃ yx ∈ sampledCoords is.2.height is.2.width stride,
        p = posOf is.2.width is.2.height (sliceZ is.1 slices.length) yx ∧
        ∀ v : Int, is.2.pixelData.get? (yx.1 * is.2.width + yx.2) = some v → ¬ v < -800)
      slices.enum initSampleState
      (fun st2 is _ q hq => sampleSlice_vertices rng stride
        (sliceZ is.1 slices.length) is.2 st2 q hq)
      p hp
    rcases hmem with h | ⟨is, his, hq⟩
    · exact absurd h (by simp [initSampleState])
    · obtain ⟨i, s⟩ := is
      obtain ⟨hi, hs⟩ := List.mem_enum his
      refine ⟨i, s, ?_, hq⟩
      rw [List.get?_eq_get hi, hs]
      rfl

/-- C2: for every slice stack (with well-formed pixel arrays) and every
positive stride, every emitted point originates from a sampled pixel whose
value is present and not below the −800 air cutoff — air pixels never
contribute points. -/
theorem c2_air_never_emitted (rng : Nat → ℚ) (stride : Nat) (slices : List Slice)
    (hstride : 0 < stride)
    (hw : ∀ s ∈ slices, s.pixelData.length = s.width * s.height)
    (pc : PointCloud)
    (hpc : createVolumeFromSlices rng stride slices = .ok (some pc)) :
    ∀ p ∈ pc.points, ∃ i s, slices.get? i = some s ∧
      SliceEmission stride (sliceZ i slices.length) s p := by
  intro p hp
  obtain ⟨i, s, hgs, yx, hyx, hpos, hval⟩ :=
    createVolume_provenance rng stride slices pc hpc p hp
  refine ⟨i, s, hgs, yx, hyx, hpos, ?_⟩
  obtain ⟨hi, hget⟩ := List.get?_eq_some.mp hgs
  have hsmem : s ∈ slices := hget ▸ (List.get_mem slices i hi)
  have hb : yx.1 * s.width + yx.2 < s.pixelData.length := by
    rw [hw s hsmem]
    obtain ⟨hy, hx⟩ := mem_sampledCoords.mp hyx
    exact pixelIndex_lt (mem_strideRange.mp hx).1 (mem_strideRange.mp hy).1
  refine ⟨s.pixelData.get ⟨_, hb⟩, List.get?_eq_get hb, ?_⟩
  exact hval _ (List.get?_eq_get hb)

/-- Witness for C2 on a concrete one-slice stack. -/
theorem c2_air_never_emitted_witness :
    0 < 1 ∧
    (∃ pc, createVolumeFromSlices rngZero 1 stackOne = .ok (some pc) ∧
      ∀ p ∈ pc.points, ∃ i s, stackOne.get? i = some s ∧
        SliceEmission 1 (sliceZ i stackOne.length) s p) :=
  ⟨Nat.one_pos, _, rfl,
    c2_air_never_emitted rngZero 1 stackOne Nat.one_pos (by decide) _ rfl⟩

/-- C6: every point of a reconstructed cloud sits at the z-coordinate
`i * sliceSpacing − (N * sliceSpacing) / 2` of its slice (sliceSpacing 1),
and hence within `[−N/2, N/2]`. -/
theorem c6_z_centering (rng : Nat → ℚ) (stride : Nat) (slices : List Slice)
    (pc : PointCloud)
    (hpc : createVolumeFromSlices rng stride slices = .ok (some pc)) :
    ∀ p ∈ pc.points,
      (∃ i, i < slices.length ∧ p.2.2 = sliceZ i slices.length) ∧
      -((slices.length : ℚ)) / 2 ≤ p.2.2 ∧ p.2.2 ≤ (slices.length : ℚ) / 2 := by
  intro p hp
  obtain ⟨i, s, hgs, yx, _, hpos, _⟩ :=
    createVolume_provenance rng stride slices pc hpc p hp
  obtain ⟨hi, _⟩ := List.get?_eq_some.mp hgs
  have hz : p.2.2 = sliceZ i slices.length := by rw [hpos]; rfl
  refine ⟨⟨i, hi, hz⟩, ?_, ?_⟩ <;> rw [hz] <;>
    unfold sliceZ totalHeight sliceHeight
  · have h0 : (0 : ℚ) ≤ (i : ℚ) := by positivity
    linarith
  · have h1 : (i : ℚ) + 1 ≤ (slices.length : ℚ) := by exact_mod_cast hi
    linarith

/-- Witness for C6 on a concrete one-slice stack. -/
theorem c6_z_centering_witness :
    ∃ pc, createVolumeFromSlices rngZero 1 stackOne = .ok (some pc) ∧
      ∀ p ∈ pc.points,
        (∃ i, i < stackOne.length ∧ p.2.2 = sliceZ i stackOne.length) ∧
        -((stackOne.length : ℚ)) / 2 ≤ p.2.2 ∧ p.2.2 ≤ (stackOne.length : ℚ) / 2 :=
  ⟨_, rfl, c6_z_centering rngZero 1 stackOne _ rfl⟩

/-- Every `processPixel` step keeps the vertex and color arrays the same
length as each other. -/
theorem processPixel_balanced (rng : Nat → ℚ) (w h : Nat) (z : ℚ) (pd : List Int)
    (st : SampleState) (yx : Nat × Nat)
    (hb : st.vertices.length = st.colors.length) :
    (processPixel rng w h z pd st yx).vertices.length =
      (processPixel rng w h z pd st yx).colors.length := by
  simp only [processPixel]
  split
  · simp [hb]
  · split_ifs <;> simp [hb]

/-- The whole sampling fold keeps the two arrays the same length. -/
theorem samplerBalanced (rng : Nat → ℚ) (stride : Nat) (slices : List Slice) :
    (slices.enum.foldl
      (fun st is => sampleSlice rng stride (sliceZ is.1 slices.length) is.2 st)
      initSampleState).vertices.length =
    (slices.enum.foldl
      (fun st is => sampleSlice rng stride (sliceZ is.1 slices.length) is.2 st)
      initSampleState).colors.length := by
  refine foldl_preserve _ (fun st => st.vertices.length = st.colors.length)
    slices.enum initSampleState ?_ rfl
  intro st2 is _ hst2
  exact foldl_preserve _ (fun st => st.vertices.length = st.colors.length)
    _ st2 (fun st3 yx _ h3 =>
      processPixel_balanced rng is.2.width is.2.height
        (sliceZ is.1 slices.length) is.2.pixelData st3 yx h3) hst2

/-- C7: for every non-empty slice stack and every outcome of the random
draws, reconstruction returns a point cloud whose `points` and `colors`
sequences have equal length (the color at an index belongs to the point at
that index, both being pushed together). -/
theorem c7_parallel_lengths (rng : Nat → ℚ) (stride : Nat) (slices : List Slice)
    (hne : slices ≠ []) :
    ∃ pc, createVolumeFromSlices rng stride slices = .ok (some pc) ∧
      pc.points.length = pc.colors.length := by
  have hlen : ¬ slices.length = 0 := fun h => hne (List.length_eq_zero.mp h)
  unfold createVolumeFromSlices
  rw [if_neg hlen]
  exact ⟨_, rfl, samplerBalanced rng stride slices⟩

/-- Witness for C7 on a concrete one-slice stack. -/
theorem c7_parallel_lengths_witness :
    ∃ pc, createVolumeFromSlices rngZero 1 stackOne = .ok (some pc) ∧
      pc.points.length = pc.colors.length :=
  c7_parallel_lengths rngZero 1 stackOne (by decide)

/-- A fold whose steps all fix the state returns the initial state. -/
theorem foldl_fixed {α β : Type} (f : β → α → β) :
    ∀ (l : List α) (b : β), (∀ b' a, a ∈ l → f b' a = b') → l.foldl f b = b
  | [], _, _ => rfl
  | a :: l, b, hf => by
      rw [List.foldl_cons, hf b a (List.mem_cons_self a l)]
      exact foldl_fixed f l b (fun b' a2 h2 => hf b' a2 (List.mem_cons_of_mem a h2))

/-- C9 (amended): sampling a validated stack never fails — an all-air stack
yields a valid empty point cloud, which the integrated viewer swaps into
the scene; the standalone `ThreeDViewer` update effect, however, skips a
zero-point cloud and leaves the previous scene content in place. -/
theorem c9_all_air_empty_cloud (rng : Nat → ℚ) (stride : Nat) (slices : List Slice)
    (hne : slices ≠ [])
    (hw : ∀ s ∈ slices, s.pixelData.length = s.width * s.height)
    (hair : ∀ s ∈ slices, ∀ v ∈ s.pixelData, v < -800) :
    ∃ pc, createVolumeFromSlices rng stride slices = .ok (some pc) ∧
      pc.points = [] ∧ pc.colors = [] ∧
      (∀ scene, createVolumeSceneEffect rng stride scene slices =
        replaceVolume scene pc) ∧
      (∀ scene, updateVolumeEffect scene (some pc) = scene) := by
  have hlen : ¬ slices.length = 0 := fun h => hne (List.length_eq_zero.mp h)
  have hfold : slices.enum.foldl
      (fun st is => sampleSlice rng stride (sliceZ is.1 slices.length) is.2 st)
      initSampleState = initSampleState := by
    refine foldl_fixed _ slices.enum initSampleState ?_
    intro st2 is his
    obtain ⟨i, s⟩ := is
    obtain ⟨hi, hs⟩ := List.mem_enum his
    have hsmem : s ∈ slices := hs ▸ List.getElem_mem hi
    refine foldl_fixed _ _ st2 ?_
    intro st3 yx hyx
    have hb : yx.1 * s.width + yx.2 < s.pixelData.length := by
      rw [hw s hsmem]
      obtain ⟨hy, hx⟩ := mem_sampledCoords.mp hyx
      exact pixelIndex_lt (mem_strideRange.mp hx).1 (mem_strideRange.mp hy).1
    have hv : s.pixelData[yx.1 * s.width + yx.2]? =
        some s.pixelData[yx.1 * s.width + yx.2] := List.getElem?_eq_getElem hb
    have hvair : s.pixelData[yx.1 * s.width + yx.2] < -800 :=
      hair s hsmem _ (List.getElem_mem hb)
    simp [processPixel, hv, hvair]
  have hres : createVolumeFromSlices rng stride slices = .ok (some ⟨[], []⟩) := by
    unfold createVolumeFromSlices
    rw [if_neg hlen]
    simp only [hfold]
    rfl
  refine ⟨⟨[], []⟩, hres, rfl, rfl, ?_, ?_⟩
  · intro scene
    unfold createVolumeSceneEffect
    rw [hres]
  · intro scene
    simp [updateVolumeEffect]

/-- Witness for the amended C9 on the concrete all-air stack. -/
theorem c9_all_air_empty_cloud_witness :
    ∃ pc, createVolumeFromSlices rngZero 1 airStack = .ok (some pc) ∧
      pc.points = [] ∧ pc.colors = [] ∧
      (∀ scene, createVolumeSceneEffect rngZero 1 scene airStack =
        replaceVolume scene pc) ∧
      (∀ scene, updateVolumeEffect scene (some pc) = scene) :=
  c9_all_air_empty_cloud rngZero 1 airStack (by decide) (by decide) (by decide)

/-- C10: for a slice whose pixel array has length exactly width·height,
every flat index `y * width + x` the sampling loops compute stays inside
the pixel array. -/
theorem c10_sampling_in_bounds (s : Slice) (stride : Nat)
    (hw : s.pixelData.length = s.width * s.height) :
    ∀ yx ∈ sampledCoords s.height s.width stride,
      yx.1 * s.width + yx.2 < s.pixelData.length := by
  intro yx hyx
  rw [hw]
  obtain ⟨hy, hx⟩ := mem_sampledCoords.mp hyx
  exact pixelIndex_lt (mem_strideRange.mp hx).1 (mem_strideRange.mp hy).1

/-- Witness for C10 on a concrete 2×2 slice and coordinate. -/
theorem c10_sampling_in_bounds_witness :
    sliceTwoByTwo.pixelData.length = sliceTwoByTwo.width * sliceTwoByTwo.height ∧
    (1, 1) ∈ sampledCoords sliceTwoByTwo.height sliceTwoByTwo.width 1 ∧
    1 * sliceTwoByTwo.width + 1 < sliceTwoByTwo.pixelData.length :=
  ⟨by decide, by decide,
    c10_sampling_in_bounds sliceTwoByTwo 1 (by decide) (1, 1) (by decide)⟩

/-- Stable insertion permutes to consing the new element. -/
theorem insertSlice_perm (a : LoadedSlice) :
    ∀ l : List LoadedSlice, (insertSlice a l).Perm (a :: l)
  | [] => List.Perm.refl _
  | b :: bs => by
      rw [insertSlice]
      split
      · exact List.Perm.refl _
      · exact ((insertSlice_perm a bs).cons b).trans (List.Perm.swap a b bs)

/-- Membership after stable insertion. -/
theorem mem_insertSlice {c a : LoadedSlice} {l : List LoadedSlice} :
    c ∈ insertSlice a l ↔ c = a ∨ c ∈ l := by
  rw [(insertSlice_perm a l).mem_iff, List.mem_cons]

/-- The folded insertion sort permutes to the input (followed by the
accumulator). -/
theorem sortSlices_loop_perm :
    ∀ (l acc : List LoadedSlice),
      (l.foldl (fun acc a => insertSlice a acc) acc).Perm (l ++ acc)
  | [], _ => List.Perm.refl _
  | a :: l, acc => by
      rw [List.foldl_cons]
      refine (sortSlices_loop_perm l (insertSlice a acc)).trans ?_
      exact ((insertSlice_perm a acc).append_left l).trans List.perm_middle

/-- Inserting an element that arrived later than everything in a sorted
list keeps the list sorted in the stable key order. -/
theorem insertSlice_sorted {a : LoadedSlice} :
    ∀ {l : List LoadedSlice}, l.Pairwise stableKeyOrder →
      (∀ b ∈ l, b.index < a.index) →
      (insertSlice a l).Pairwise stableKeyOrder := by
  intro l
  induction l with
  | nil =>
      intro _ _
      simp [insertSlice]
  | cons b bs ih =>
      intro hp hidx
      rw [insertSlice]
      split_ifs with hab
      · refine List.pairwise_cons.mpr ⟨?_, hp⟩
        intro c hc
        rcases List.mem_cons.mp hc with rfl | hcbs
        · exact .inl hab
        · rcases List.rel_of_pairwise_cons hp hcbs with h | ⟨h, _⟩
          · exact .inl (lt_trans hab h)
          · exact .inl (h ▸ hab)
      · have hba : b.instanceNumber ≤ a.instanceNumber := Int.not_lt.mp hab
        refine List.pairwise_cons.mpr ⟨?_, ih (List.pairwise_cons.mp hp).2
          (fun c hc => hidx c (List.mem_cons_of_mem b hc))⟩
        intro c hc
        rcases mem_insertSlice.mp hc with rfl | hcbs
        · rcases lt_or_eq_of_le hba with h | h
          · exact .inl h
          · exact .inr ⟨h, Nat.le_of_lt (hidx b (List.mem_cons_self b bs))⟩
        · exact List.rel_of_pairwise_cons hp hcbs

/-- The folded insertion sort yields a stably ordered list when the input
arrives in strictly increasing arrival-index order. -/
theorem sortSlices_loop_sorted :
    ∀ (l acc : List LoadedSlice),
      acc.Pairwise stableKeyOrder →
      (∀ b ∈ acc, ∀ a ∈ l, b.index < a.index) →
      l.Pairwise (fun a b => a.index < b.index) →
      (l.foldl (fun acc a => insertSlice a acc) acc).Pairwise stableKeyOrder
  | [], _, hacc, _, _ => hacc
  | a :: l, acc, hacc, hcross, hl => by
      rw [List.foldl_cons]
      refine sortSlices_loop_sorted l (insertSlice a acc) ?_ ?_
        (List.pairwise_cons.mp hl).2
      · exact insertSlice_sorted hacc
          (fun b hb => hcross b hb a (List.mem_cons_self a l))
      · intro b hb a2 ha2
        rcases mem_insertSlice.mp hb with rfl | hbacc
        · exact List.rel_of_pairwise_cons hl ha2
        · exact hcross b hbacc a2 (List.mem_cons_of_mem a ha2)

/-- The first components of `enumFrom` strictly increase. -/
theorem enumFrom_fst_lt {α : Type} :
    ∀ (l : List α) (k : Nat),
      (List.enumFrom k l).Pairwise (fun p q => p.1 < q.1)
  | [], _ => List.Pairwise.nil
  | a :: l, k => by
      rw [List.enumFrom_cons]
      refine List.pairwise_cons.mpr ⟨?_, enumFrom_fst_lt l (k + 1)⟩
      intro q hq
      obtain ⟨i, x⟩ := q
      obtain ⟨hk, _, _⟩ := List.mem_enumFrom hq
      exact Nat.lt_of_lt_of_le (Nat.lt_succ_self k) hk

/-- Loaded slices carry strictly increasing arrival indices. -/
theorem loadSlices_index_lt (tags : List (Option Int)) :
    (loadSlices tags).Pairwise (fun a b => a.index < b.index) := by
  unfold loadSlices
  rw [List.pairwise_map]
  exact enumFrom_fst_lt tags 0

/-- The loading step keeps each tag at its arrival position and defaults a
missing instance number to the arrival index. -/
theorem loadSlices_get (tags : List (Option Int)) (i : Nat) (t : Option Int)
    (ht : tags.get? i = some t) :
    (loadSlices tags).get? i = some ⟨i, t.getD (i : Int)⟩ := by
  unfold loadSlices
  rw [List.get?_map, List.get?_enum, ht]
  rfl

/-- C5: the normalizer returns a permutation of the loaded slices, sorted
ascending by `instanceNumber`, stable (equal keys keep arrival order,
making the result deterministic), with a slice lacking an instance number
keyed by its arrival index. -/
theorem c5_normalizer_sort (tags : List (Option Int)) :
    (handleFileUploadSort tags).Perm (loadSlices tags) ∧
    (handleFileUploadSort tags).Pairwise
      (fun a b => a.instanceNumber ≤ b.instanceNumber) ∧
    (handleFileUploadSort tags).Pairwise
      (fun a b => a.instanceNumber = b.instanceNumber → a.index ≤ b.index) ∧
    ∀ i t, tags.get? i = some t →
      (loadSlices tags).get? i = some ⟨i, t.getD (i : Int)⟩ := by
  have hsorted : (handleFileUploadSort tags).Pairwise stableKeyOrder := by
    unfold handleFileUploadSort sortSlices
    exact sortSlices_loop_sorted (loadSlices tags) [] List.Pairwise.nil
      (fun b hb => absurd hb (List.not_mem_nil b)) (loadSlices_index_lt tags)
  refine ⟨?_, ?_, ?_, fun i t ht => loadSlices_get tags i t ht⟩
  · have hperm := sortSlices_loop_perm (loadSlices tags) []
    unfold handleFileUploadSort sortSlices
    simpa using hperm
  · refine hsorted.imp ?_
    intro a b h
    rcases h with h | ⟨h, _⟩
    · exact le_of_lt h
    · exact le_of_eq h
  · refine hsorted.imp ?_
    intro a b h
    rcases h with h | ⟨_, hle⟩
    · exact fun he => absurd he (ne_of_lt h)
    · exact fun _ => hle

/-- Witness for C5 at concrete tags with a tie and a missing tag. -/
theorem c5_normalizer_sort_witness :
    tagsW.get? 1 = some none ∧
    (loadSlices tagsW).get? 1 = some ⟨1, (none : Option Int).getD 1⟩ ∧
    (handleFileUploadSort tagsW).Perm (loadSlices tagsW) :=
  ⟨by decide, (c5_normalizer_sort tagsW).2.2.2 1 none (by decide),
    (c5_normalizer_sort tagsW).1⟩

end Nelsview
